import Mathlib

/-!
Shallow embedding of the ProMarker CLI validation engine
(`src/commands/validate.ts` of `vemikrs/promarker-cli`).

The engine is a pure pipeline over a file-system snapshot: it loads
`stencil-settings.yml` from a root directory, parses it as YAML, validates
the parsed value against a Zod schema, optionally applies strict-mode
convention checks, checks declared file references against the file system,
reports `extend`/`include` cross references, and aggregates everything into
a `ValidationSummary` from which the exit code is derived.

External collaborators are modelled as parameters:
  * the file system (`FileSystem`: `existsSync`, `statSync(..).isDirectory()`,
    `readFileSync`, the `glob` file count);
  * the YAML parser (`parseYaml : String → Except String Yaml`, where
    `.error` models a thrown parse exception carrying its message);
  * the clock (the `now` string stored as `validatedAt`).
The Zod schema `StencilSettingsSchema` is modelled concretely, following
Zod's documented behaviour on this fixed schema (missing required key →
issue "Required" at that key's path; empty string under `min(1, msg)` →
issue `msg`; wrong primitive type → "Expected ..., received ...").
-/

/-- A parsed YAML value, as the JavaScript value the `yaml` library yields. -/
inductive Yaml where
  | null : Yaml
  | bool : Bool → Yaml
  | num : Int → Yaml
  | str : String → Yaml
  | arr : List Yaml → Yaml
  | map : List (String × Yaml) → Yaml

/-- JavaScript truthiness of a YAML-produced value (`if (v)`):
`null`/`false`/`0`/`""` are falsy, arrays and objects are always truthy. -/
def Yaml.truthy : Yaml → Bool
  | .null => false
  | .bool b => b
  | .num n => n != 0
  | .str s => s != ""
  | .arr _ => true
  | .map _ => true

/-- Truthiness of `obj.key`, where a missing key reads as `undefined` (falsy). -/
def truthyOpt : Option Yaml → Bool
  | none => false
  | some v => v.truthy

/-- JavaScript property access `v[k]`: defined on objects (and arrays, where
our string keys never occur); `undefined` (`none`) otherwise. -/
def Yaml.jsGet : Yaml → String → Option Yaml
  | .map kvs, k => kvs.lookup k
  | _, _ => none

/-- The guard `typeof settings === 'object' && settings !== null` used by the
checkers: JS arrays and objects pass, `null` and primitives do not. -/
def Yaml.isJsObject : Yaml → Bool
  | .map _ => true
  | .arr _ => true
  | _ => false

/-- The type name Zod reports for a received value in its
"Expected ..., received ..." messages. -/
def Yaml.zodTypeName : Yaml → String
  | .null => "null"
  | .bool _ => "boolean"
  | .num _ => "number"
  | .str _ => "string"
  | .arr _ => "array"
  | .map _ => "object"

/-- Finding severity; the source stores it in the `type` field of a
`ValidationResult` as `'error' | 'warning' | 'info'`. -/
inductive Severity where
  | error : Severity
  | warning : Severity
  | info : Severity
deriving Repr, DecidableEq

/-- One Finding (`ValidationResult` in the source). -/
structure ValidationResult where
  path : String
  type : Severity
  message : String
  details : Option String := none
deriving Repr, DecidableEq

/-- The aggregate report (`ValidationSummary` in the source). -/
structure ValidationSummary where
  success : Bool
  path : String
  errors : List ValidationResult
  warnings : List ValidationResult
  info : List ValidationResult
  totalFiles : Nat
  validatedAt : String
deriving Repr, DecidableEq

/-- The options relevant to the engine (`ValidateOptions` minus `format`,
which only selects the renderer). `failOn` is the raw CLI string, compared
with `=== 'warn'` by `determineExitCode`; `strict` is the truthiness of the
optional `strict` flag; `ignore` is accepted but unused by the engine. -/
structure ValidateOptions where
  failOn : String
  strict : Bool := false
  ignore : List String := []
deriving Repr

/-- Snapshot of the file system as the engine queries it. `readFileSync`
returns `.error msg` when the read throws with message `msg`.
`globCount p` is `glob('**/*', { cwd: p, nodir: true }).length`. -/
structure FileSystem where
  existsSync : String → Bool
  isDirectorySync : String → Bool
  readFileSync : String → Except String String
  globCount : String → Nat

/-- Node's `join(a, b)` for our always-relative second components
(no normalisation is ever needed on the paths the engine builds). -/
def joinPath (a b : String) : String := a ++ "/" ++ b

/-- One Zod issue: its `path` (already rendered entrywise, array indices as
decimal strings, as `err.path.join('.')` sees them) and its `message`. -/
structure ZodIssue where
  path : List String
  message : String
deriving Repr, DecidableEq

/-- `err.path.join('.')`. -/
def joinDot : List String → String
  | [] => ""
  | [x] => x
  | x :: xs => x ++ "." ++ joinDot xs

/-- Zod check for `key: z.string().min(1, minMsg)` inside `z.object`. -/
def checkRequiredString (key minMsg : String) (kvs : List (String × Yaml)) :
    List ZodIssue :=
  match kvs.lookup key with
  | none => [⟨[key], "Required"⟩]
  | some (.str s) => if s = "" then [⟨[key], minMsg⟩] else []
  | some v => [⟨[key], "Expected string, received " ++ v.zodTypeName⟩]

/-- Zod check for `key: z.string().optional()`. -/
def checkOptionalString (key : String) (kvs : List (String × Yaml)) :
    List ZodIssue :=
  match kvs.lookup key with
  | none => []
  | some (.str _) => []
  | some v => [⟨[key], "Expected string, received " ++ v.zodTypeName⟩]

/-- Element check for `z.array(z.string())`: one issue per non-string entry,
at path `[key, index]`. -/
def checkStringElems (key : String) (i : Nat) : List Yaml → List ZodIssue
  | [] => []
  | .str _ :: rest => checkStringElems key (i + 1) rest
  | v :: rest =>
      ⟨[key, toString i], "Expected string, received " ++ v.zodTypeName⟩ ::
        checkStringElems key (i + 1) rest

/-- Zod check for `key: z.array(z.string()).optional()`. -/
def checkOptionalStringArray (key : String) (kvs : List (String × Yaml)) :
    List ZodIssue :=
  match kvs.lookup key with
  | none => []
  | some (.arr xs) => checkStringElems key 0 xs
  | some v => [⟨[key], "Expected array, received " ++ v.zodTypeName⟩]

/-- Zod check for `key: z.record(z.string(), z.any()).optional()`. -/
def checkOptionalRecord (key : String) (kvs : List (String × Yaml)) :
    List ZodIssue :=
  match kvs.lookup key with
  | none => []
  | some (.map _) => []
  | some v => [⟨[key], "Expected object, received " ++ v.zodTypeName⟩]

/-- `StencilSettingsSchema.safeParse` modelled as its issue list:
the parse succeeds iff this list is empty. -/
def stencilIssues : Yaml → List ZodIssue
  | .map kvs =>
      checkRequiredString "id" "Stencil ID is required" kvs ++
      checkRequiredString "name" "Stencil name is required" kvs ++
      checkRequiredString "version" "Version is required" kvs ++
      checkRequiredString "type" "Stencil type is required" kvs ++
      checkOptionalString "description" kvs ++
      checkOptionalStringArray "files" kvs ++
      checkOptionalStringArray "include" kvs ++
      checkOptionalString "extend" kvs ++
      checkOptionalRecord "variables" kvs ++
      checkOptionalRecord "metadata" kvs
  | v => [⟨[], "Expected object, received " ++ v.zodTypeName⟩]

/-- Character class of `/^[a-z0-9-_]+$/`. -/
def isIdChar (c : Char) : Bool :=
  (decide ('a' ≤ c) && decide (c ≤ 'z')) ||
    (decide ('0' ≤ c) && decide (c ≤ '9')) || c == '-' || c == '_'

/-- `/^[a-z0-9-_]+$/.test(s)`: nonempty and every character in the class. -/
def idConventionOk (s : String) : Bool :=
  s != "" && s.toList.all isIdChar

/-- Consume one or more decimal digits; `none` if the list starts without one. -/
def chompDigits : List Char → Option (List Char)
  | c :: rest =>
      if c.isDigit then
        some (rest.dropWhile Char.isDigit)
      else none
  | [] => none

/-- `/^\d+\.\d+\.\d+/.test(s)`: the string begins with
`digits '.' digits '.' digits`. -/
def semverPrefixOk (s : String) : Bool :=
  match chompDigits s.toList with
  | none => false
  | some r1 =>
    match r1 with
    | '.' :: r2 =>
      match chompDigits r2 with
      | none => false
      | some r3 =>
        match r3 with
        | '.' :: r4 => (chompDigits r4).isSome
        | _ => false
    | _ => false

/-- `performStrictValidation(settingsFile, settings, results)`: the three
independent convention checks, each pushing at most one warning. The source
receives Zod's parsed data, which agrees with the raw map on every schema
key, and re-guards each access with `typeof`-checks; both are mirrored. -/
def performStrictValidation (settingsFile : String) (settings : Yaml) :
    List ValidationResult :=
  if !settings.isJsObject then []
  else
    (match settings.jsGet "id" with
     | some (.str s) =>
         if !idConventionOk s then
           [{ path := settingsFile, type := .warning,
              message := "Stencil ID should only contain lowercase letters, numbers, hyphens, and underscores" }]
         else []
     | _ => []) ++
    (match settings.jsGet "version" with
     | some (.str s) =>
         if !semverPrefixOk s then
           [{ path := settingsFile, type := .warning,
              message := "Version should follow semantic versioning format (x.y.z)" }]
         else []
     | _ => []) ++
    (if !truthyOpt (settings.jsGet "description") then
       [{ path := settingsFile, type := .warning,
          message := "Description is recommended for better documentation" }]
     else [])

/-- `validateSettingsFile(settingsFile, results, options)`: the list of
Findings it pushes onto `results`. -/
def validateSettingsFile (fs : FileSystem) (parseYaml : String → Except String Yaml)
    (settingsFile : String) (opts : ValidateOptions) : List ValidationResult :=
  match fs.readFileSync settingsFile with
  | .error e =>
      [{ path := settingsFile, type := .error,
         message := "Failed to read stencil settings file", details := some e }]
  | .ok content =>
    match parseYaml content with
    | .error e =>
        [{ path := settingsFile, type := .error,
           message := "Invalid YAML format", details := some e }]
    | .ok settings =>
      match stencilIssues settings with
      | [] =>
          (if opts.strict then performStrictValidation settingsFile settings
           else []) ++
          [{ path := settingsFile, type := .info,
             message := "Stencil settings file is valid" }]
      | issues =>
          issues.map (fun err =>
            { path := settingsFile, type := .error,
              message := "Schema validation failed: " ++ joinDot err.path ++
                " - " ++ err.message })

/-- The Finding `validateFileReferences` pushes for one declared file path. -/
def fileRefFinding (fs : FileSystem) (root file : String) : ValidationResult :=
  let filePath := joinPath root file
  if !fs.existsSync filePath then
    { path := filePath, type := .error,
      message := "Referenced file does not exist: " ++ file }
  else
    { path := filePath, type := .info,
      message := "Referenced file exists: " ++ file }

/-- `validateFileReferences(path, settings, results, options)`: per-entry
existence Findings for a declared `files` list (non-string entries are
skipped by the `typeof` guard), then — only when `settings.files` is falsy
(in particular absent, but not when it is an empty array, which is truthy
in JavaScript) — the implicit `files/` convention-directory check. -/
def validateFileReferences (fs : FileSystem) (root : String) (settings : Yaml) :
    List ValidationResult :=
  if !settings.isJsObject then []
  else
    (match settings.jsGet "files" with
     | some (.arr xs) =>
         xs.filterMap (fun f =>
           match f with
           | .str file => some (fileRefFinding fs root file)
           | _ => none)
     | _ => []) ++
    (if !truthyOpt (settings.jsGet "files") then
       let filesDir := joinPath root "files"
       if fs.existsSync filesDir && fs.isDirectorySync filesDir then
         [{ path := filesDir, type := .info,
            message := "Default files/ directory found" }]
       else
         [{ path := filesDir, type := .warning,
            message := "No files/ directory found and no explicit files list provided" }]
     else [])

/-- `validateReferenceIntegrity(path, settings, results, options)`: it reads
only the parsed value (no file-system argument, as in the source), warning
once for a truthy string `extend` and once per string entry of an `include`
array, in order. -/
def validateReferenceIntegrity (root : String) (settings : Yaml) :
    List ValidationResult :=
  if !settings.isJsObject then []
  else
    (match settings.jsGet "extend" with
     | some (.str s) =>
         if s ≠ "" then
           [{ path := joinPath root "stencil-settings.yml", type := .warning,
              message := "Extend reference found: " ++ s ++
                " (cannot validate external references in Phase 1)" }]
         else []
     | _ => []) ++
    (match settings.jsGet "include" with
     | some (.arr xs) =>
         xs.filterMap (fun inc =>
           match inc with
           | .str s => some
               { path := joinPath root "stencil-settings.yml", type := .warning,
                 message := "Include reference found: " ++ s ++
                   " (cannot validate external references in Phase 1)" }
           | _ => none)
     | _ => [])

/-- `loadStencilSettings(settingsFile)`: re-read and re-parse the document,
`none` when reading or parsing throws (the catch branch returning `null`). -/
def loadStencilSettings (fs : FileSystem)
    (parseYaml : String → Except String Yaml) (settingsFile : String) :
    Option Yaml :=
  match fs.readFileSync settingsFile with
  | .error _ => none
  | .ok content =>
    match parseYaml content with
    | .error _ => none
    | .ok v => some v

/-- `createSummary(path, results, totalFiles)`: partition by severity;
`success` iff no error Finding; `validatedAt` is the clock reading. -/
def createSummary (path : String) (results : List ValidationResult)
    (totalFiles : Nat) (now : String) : ValidationSummary :=
  let errors := results.filter (fun r => r.type == .error)
  let warnings := results.filter (fun r => r.type == .warning)
  let infoList := results.filter (fun r => r.type == .info)
  { success := errors.length == 0
    path := path
    errors := errors
    warnings := warnings
    info := infoList
    totalFiles := totalFiles
    validatedAt := now }

/-- `validateStencilDefinition(path, options)`: the whole pipeline. Note the
guard before the downstream checks is `if (settings)` on the value returned
by `loadStencilSettings` — JavaScript truthiness of the re-parsed YAML
value, independent of schema validity. -/
def validateStencilDefinition (fs : FileSystem)
    (parseYaml : String → Except String Yaml) (path : String)
    (opts : ValidateOptions) (now : String) : ValidationSummary :=
  if !fs.existsSync path then
    createSummary path
      [{ path := path, type := .error, message := "Path does not exist" }] 0 now
  else if !fs.isDirectorySync path then
    createSummary path
      [{ path := path, type := .error, message := "Path must be a directory" }] 0 now
  else
    let settingsFile := joinPath path "stencil-settings.yml"
    if !fs.existsSync settingsFile then
      createSummary path
        [{ path := settingsFile, type := .error,
           message := "Required file stencil-settings.yml not found" }] 0 now
    else
      let r1 := validateSettingsFile fs parseYaml settingsFile opts
      let totalFiles := fs.globCount path
      let rest :=
        match loadStencilSettings fs parseYaml settingsFile with
        | some settings =>
            if settings.truthy then
              validateFileReferences fs path settings ++
                validateReferenceIntegrity path settings
            else []
        | none => []
      createSummary path (r1 ++ rest) totalFiles now

/-- `determineExitCode(summary, failOn)`. -/
def determineExitCode (summary : ValidationSummary) (failOn : String) : Nat :=
  if summary.errors.length > 0 then 2
  else if failOn = "warn" && summary.warnings.length > 0 then 1
  else 0

/-- `validateCommand`: run the pipeline and derive the exit code (the
rendering branch only prints; no exception escapes the pure pipeline). -/
def validateCommand (fs : FileSystem)
    (parseYaml : String → Except String Yaml) (path : String)
    (opts : ValidateOptions) (now : String) : Nat :=
  determineExitCode (validateStencilDefinition fs parseYaml path opts now)
    opts.failOn

/-! ## Helper lemmas -/

/-- A severity filter of `createSummary` is nonempty iff some Finding of that
severity is among the collected results. -/
theorem filter_severity_ne_nil_iff (rs : List ValidationResult) (sev : Severity) :
    rs.filter (fun r => r.type == sev) ≠ [] ↔ ∃ f ∈ rs, f.type = sev := by
  constructor
  · intro h
    rcases List.exists_mem_of_ne_nil _ h with ⟨f, hf⟩
    rw [List.mem_filter] at hf
    exact ⟨f, hf.1, by simpa using hf.2⟩
  · rintro ⟨f, hmem, hty⟩
    intro hnil
    have : f ∈ rs.filter (fun r => r.type == sev) :=
      List.mem_filter.2 ⟨hmem, by simp [hty]⟩
    simp [hnil] at this

/-- `filterMap` of the per-entry reference check over a list of string
entries is the plain map of the per-entry Finding. -/
theorem filterMap_fileRef_map_str (fs : FileSystem) (root : String)
    (files : List String) :
    (files.map Yaml.str).filterMap (fun f =>
        match f with
        | .str file => some (fileRefFinding fs root file)
        | _ => none) = files.map (fileRefFinding fs root) := by
  induction files with
  | nil => rfl
  | cons x xs ih => simp [List.filterMap_cons, ih]

/-! ## C2: exit-code policy -/

/-- C2: for every run (every summary is built by `createSummary` from the
run's collected Findings) and every `failOn` setting, the exit code is 2
iff an error-severity Finding exists; otherwise 1 when `failOn = "warn"`
and a warning-severity Finding exists; otherwise 0 — in particular, with
the default `failOn = "error"` the code is 0 regardless of warnings. -/
theorem determineExitCode_policy (rs : List ValidationResult) (p : String)
    (n : Nat) (now : String) (failOn : String) :
    determineExitCode (createSummary p rs n now) failOn =
      if ∃ f ∈ rs, f.type = .error then 2
      else if failOn = "warn" ∧ ∃ f ∈ rs, f.type = .warning then 1
      else 0 := by
  have herr := filter_severity_ne_nil_iff rs .error
  have hwarn := filter_severity_ne_nil_iff rs .warning
  by_cases he : ∃ f ∈ rs, f.type = .error
  · have h1 : (createSummary p rs n now).errors.length > 0 :=
      List.length_pos.2 (herr.2 he)
    simp [determineExitCode, h1, he]
  · have h1 : (createSummary p rs n now).errors = [] := by
      show rs.filter _ = []
      by_contra hne
      exact he (herr.1 hne)
    by_cases hw : failOn = "warn" ∧ ∃ f ∈ rs, f.type = .warning
    · have h2 : (createSummary p rs n now).warnings.length > 0 :=
        List.length_pos.2 (hwarn.2 hw.2)
      simp [determineExitCode, h1, he, hw, hw.1, h2]
    · by_cases hf : failOn = "warn"
      · have hnw : ¬ ∃ f ∈ rs, f.type = .warning := fun h => hw ⟨hf, h⟩
        have h2 : (createSummary p rs n now).warnings = [] := by
          show rs.filter _ = []
          by_contra hne
          exact hnw (hwarn.1 hne)
        simp [determineExitCode, h1, he, hw, h2]
      · simp [determineExitCode, h1, he, hw, hf]

/-! ## C3: totalFiles -/

/-- C3 (amended): `totalFiles` is the recursive file count under root
whenever the root exists, is a directory, and `stencil-settings.yml`
exists — in particular also when the document fails to parse — and is 0
in the three early-return cases (root missing, root not a directory, or
settings document absent). -/
theorem totalFiles_characterization (fs : FileSystem)
    (parseYaml : String → Except String Yaml) (path : String)
    (opts : ValidateOptions) (now : String) :
    (validateStencilDefinition fs parseYaml path opts now).totalFiles =
      if fs.existsSync path && fs.isDirectorySync path &&
          fs.existsSync (joinPath path "stencil-settings.yml") then
        fs.globCount path
      else 0 := by
  unfold validateStencilDefinition
  by_cases h1 : fs.existsSync path
  · by_cases h2 : fs.isDirectorySync path
    · by_cases h3 : fs.existsSync (joinPath path "stencil-settings.yml")
      · simp [h1, h2, h3, createSummary]
      · simp [h1, h2, h3, createSummary]
    · simp [h1, h2, createSummary]
  · simp [h1, createSummary]

/-- File system refuting the claim as stated: the root exists and is a
directory holding one file, but `stencil-settings.yml` is absent. -/
def fsNoSettings : FileSystem :=
  { existsSync := fun p => p == "/r"
    isDirectorySync := fun p => p == "/r"
    readFileSync := fun _ => .error "ENOENT"
    globCount := fun _ => 1 }

/-- A parser stub never consulted on the C3 counterexample run. -/
def parseStub : String → Except String Yaml := fun _ => .error "not consulted"

/-- C3 counterexample: on `fsNoSettings` the root exists and is a directory
with one file under it, yet the report's `totalFiles` is 0, not 1 — the
claim excepts only a missing or non-directory root, but the engine also
returns before counting when the settings document is absent. -/
theorem totalFiles_counterexample :
    fsNoSettings.existsSync "/r" = true ∧
    fsNoSettings.isDirectorySync "/r" = true ∧
    fsNoSettings.globCount "/r" = 1 ∧
    (validateStencilDefinition fsNoSettings parseStub "/r"
        { failOn := "error" } "t0").totalFiles = 0 :=
  ⟨rfl, rfl, rfl, rfl⟩

/-! ## C10: empty explicit files list -/

/-- C10: when `files` is present as an empty sequence, the Reference
Checker emits nothing: the per-entry loop is vacuous, and since an empty
array is truthy in JavaScript the implicit `files/` convention-directory
check (both its info and its warning Finding) is skipped. -/
theorem fileReferences_empty_files (fs : FileSystem) (root : String)
    (kvs : List (String × Yaml))
    (hfiles : kvs.lookup "files" = some (.arr [])) :
    validateFileReferences fs root (.map kvs) = [] := by
  unfold validateFileReferences
  simp [Yaml.isJsObject, Yaml.jsGet, hfiles, truthyOpt, Yaml.truthy]

/-- A schema-valid settings map whose `files` is the empty sequence. -/
def kvsEmptyFiles : List (String × Yaml) :=
  [("id", .str "svc"), ("name", .str "Service"), ("version", .str "1.0.0"),
   ("type", .str "service"), ("files", .arr [])]

/-- C10 witness: on the concrete schema-valid document `kvsEmptyFiles` the
Reference Checker emits no Findings. -/
theorem fileReferences_empty_files_witness :
    stencilIssues (.map kvsEmptyFiles) = [] ∧
    (kvsEmptyFiles.lookup "files" = some (.arr [])) ∧
    validateFileReferences fsNoSettings "/r" (.map kvsEmptyFiles) = [] :=
  ⟨rfl, rfl, fileReferences_empty_files fsNoSettings "/r" kvsEmptyFiles rfl⟩

/-! ## C1: schema errors do not stop the downstream checkers -/

/-- A root directory whose settings document parses to a map holding only
`name`, so schema validation fails (`id`, `version`, `type` missing);
there is no `files` key and no `files/` directory. -/
def fsSchemaInvalid : FileSystem :=
  { existsSync := fun p => p == "/r" || p == "/r/stencil-settings.yml"
    isDirectorySync := fun p => p == "/r"
    readFileSync := fun p =>
      if p == "/r/stencil-settings.yml" then .ok "name: X" else .error "ENOENT"
    globCount := fun _ => 1 }

/-- Parser for the C1 run: `"name: X"` parses to the object `{name: "X"}`. -/
def parseNameOnly : String → Except String Yaml := fun s =>
  if s == "name: X" then .ok (.map [("name", .str "X")]) else .error "bad"

/-- C1 evaluated at the failing input: schema validation emits three error
Findings (`id`, `version`, `type` are missing), yet the run's report also
contains the Reference Checker's convention-directory warning — the guard
before the downstream checks is only JavaScript truthiness of the
re-parsed YAML value (`if (settings)` on `loadStencilSettings`, which
returns `null` only when reading or parsing throws), not schema validity,
so the engine does proceed past schema errors. -/
theorem schemaErrors_do_not_skip_downstream :
    (validateStencilDefinition fsSchemaInvalid parseNameOnly "/r"
        { failOn := "error" } "t0").errors =
      [{ path := "/r/stencil-settings.yml", type := .error,
         message := "Schema validation failed: id - Required" },
       { path := "/r/stencil-settings.yml", type := .error,
         message := "Schema validation failed: version - Required" },
       { path := "/r/stencil-settings.yml", type := .error,
         message := "Schema validation failed: type - Required" }] ∧
    (validateStencilDefinition fsSchemaInvalid parseNameOnly "/r"
        { failOn := "error" } "t0").warnings =
      [{ path := "/r/files", type := .warning,
         message := "No files/ directory found and no explicit files list provided" }] :=
  ⟨rfl, rfl⟩

/-! ## C4: fatal short-circuits -/

/-- C4: on every fatal short-circuit run — root missing, root not a
directory, settings document absent, or YAML parse failure — the report
holds exactly one error Finding and zero warning and zero info Findings;
in the parse-failure case that single error Finding carries the parser's
message as `details`. -/
theorem fatal_single_error_report (fs : FileSystem)
    (parseYaml : String → Except String Yaml) (path : String)
    (opts : ValidateOptions) (now : String)
    (hfatal :
      fs.existsSync path = false ∨
      (fs.existsSync path = true ∧ fs.isDirectorySync path = false) ∨
      (fs.existsSync path = true ∧ fs.isDirectorySync path = true ∧
        fs.existsSync (joinPath path "stencil-settings.yml") = false) ∨
      (fs.existsSync path = true ∧ fs.isDirectorySync path = true ∧
        fs.existsSync (joinPath path "stencil-settings.yml") = true ∧
        ∃ content e,
          fs.readFileSync (joinPath path "stencil-settings.yml") = .ok content ∧
          parseYaml content = .error e)) :
    ((validateStencilDefinition fs parseYaml path opts now).errors.length = 1 ∧
     (validateStencilDefinition fs parseYaml path opts now).warnings = [] ∧
     (validateStencilDefinition fs parseYaml path opts now).info = []) ∧
    (∀ content e,
      fs.readFileSync (joinPath path "stencil-settings.yml") = .ok content →
      parseYaml content = .error e →
      fs.existsSync path = true →
      fs.isDirectorySync path = true →
      fs.existsSync (joinPath path "stencil-settings.yml") = true →
      (validateStencilDefinition fs parseYaml path opts now).errors =
        [{ path := joinPath path "stencil-settings.yml", type := .error,
           message := "Invalid YAML format", details := some e }]) := by
  rcases hfatal with h1 | ⟨h1, h2⟩ | ⟨h1, h2, h3⟩ | ⟨h1, h2, h3, c0, e0, hr, hp⟩
  · constructor
    · simp [validateStencilDefinition, h1, createSummary]
    · intro content e _ _ hh1 _ _
      simp [h1] at hh1
  · constructor
    · simp [validateStencilDefinition, h1, h2, createSummary]
    · intro content e _ _ _ hh2 _
      simp [h2] at hh2
  · constructor
    · simp [validateStencilDefinition, h1, h2, h3, createSummary]
    · intro content e _ _ _ _ hh3
      simp [h3] at hh3
  · constructor
    · simp [validateStencilDefinition, h1, h2, h3, validateSettingsFile,
            loadStencilSettings, hr, hp, createSummary]
    · intro content e hread hparse _ _ _
      rw [hr] at hread
      have hc : c0 = content := Except.ok.inj hread
      subst hc
      rw [hp] at hparse
      have he : e0 = e := Except.error.inj hparse
      subst he
      simp [validateStencilDefinition, h1, h2, h3, validateSettingsFile,
            loadStencilSettings, hr, hp, createSummary]

/-- A root whose settings document is present but fails to parse. -/
def fsParseFailure : FileSystem :=
  { existsSync := fun p => p == "/r" || p == "/r/stencil-settings.yml"
    isDirectorySync := fun p => p == "/r"
    readFileSync := fun p =>
      if p == "/r/stencil-settings.yml" then .ok ": bad" else .error "ENOENT"
    globCount := fun _ => 2 }

/-- Parser for the C4 witness run: every document fails with a fixed
parser message. -/
def parseAlwaysFails : String → Except String Yaml :=
  fun _ => .error "unexpected token"

/-- C4 witness: the parse-failure run on `fsParseFailure` reports exactly
one error Finding, no warnings, no info, and that Finding carries the
parser's message as `details`. -/
theorem fatal_single_error_report_witness :
    ((validateStencilDefinition fsParseFailure parseAlwaysFails "/r"
        { failOn := "error" } "t0").errors.length = 1 ∧
     (validateStencilDefinition fsParseFailure parseAlwaysFails "/r"
        { failOn := "error" } "t0").warnings = [] ∧
     (validateStencilDefinition fsParseFailure parseAlwaysFails "/r"
        { failOn := "error" } "t0").info = []) ∧
    (validateStencilDefinition fsParseFailure parseAlwaysFails "/r"
        { failOn := "error" } "t0").errors =
      [{ path := joinPath "/r" "stencil-settings.yml", type := .error,
         message := "Invalid YAML format", details := some "unexpected token" }] :=
  ⟨(fatal_single_error_report fsParseFailure parseAlwaysFails "/r"
      { failOn := "error" } "t0"
      (.inr (.inr (.inr ⟨rfl, rfl, rfl, ": bad", "unexpected token", rfl, rfl⟩)))).1,
   (fatal_single_error_report fsParseFailure parseAlwaysFails "/r"
      { failOn := "error" } "t0"
      (.inr (.inr (.inr ⟨rfl, rfl, rfl, ": bad", "unexpected token", rfl, rfl⟩)))).2
     ": bad" "unexpected token" rfl rfl rfl rfl rfl⟩

/-! ## C5: per-entry reference Findings -/

/-- C5: when `files` is declared as a non-empty list of (string) paths, the
Reference Checker produces exactly one Finding per declared path, in
declaration order, and nothing else: an info Finding when the path
resolved against root exists on disk, an error Finding when it does not. -/
theorem fileReferences_per_entry (fs : FileSystem) (root : String)
    (kvs : List (String × Yaml)) (files : List String)
    (hfiles : kvs.lookup "files" = some (.arr (files.map .str)))
    (_hne : files ≠ []) :
    validateFileReferences fs root (.map kvs) =
      files.map (fun file =>
        if fs.existsSync (joinPath root file) then
          { path := joinPath root file, type := .info,
            message := "Referenced file exists: " ++ file }
        else
          { path := joinPath root file, type := .error,
            message := "Referenced file does not exist: " ++ file }) := by
  unfold validateFileReferences
  simp only [Yaml.isJsObject, Yaml.jsGet, hfiles, Bool.not_true, truthyOpt,
    Yaml.truthy, if_false, List.append_nil, Bool.false_eq_true, ite_false]
  rw [filterMap_fileRef_map_str]
  apply List.map_congr_left
  intro file _
  unfold fileRefFinding
  cases h : fs.existsSync (joinPath root file) <;> simp [h]

/-- A root directory where `files/a.txt` exists and `files/b.txt` does not. -/
def fsOneOfTwo : FileSystem :=
  { existsSync := fun p =>
      p == "/r" || p == "/r/stencil-settings.yml" || p == "/r/files/a.txt"
    isDirectorySync := fun p => p == "/r"
    readFileSync := fun _ => .error "ENOENT"
    globCount := fun _ => 2 }

/-- A settings map declaring `files: [files/a.txt, files/b.txt]`. -/
def kvsTwoFiles : List (String × Yaml) :=
  [("id", .str "svc"), ("name", .str "Service"), ("version", .str "1.0.0"),
   ("type", .str "service"),
   ("files", .arr [.str "files/a.txt", .str "files/b.txt"])]

/-- C5 witness: on `kvsTwoFiles` over `fsOneOfTwo` the Reference Checker
yields, in declaration order, one info Finding for the existing entry and
one error Finding for the missing one. -/
theorem fileReferences_per_entry_witness :
    (["files/a.txt", "files/b.txt"] : List String) ≠ [] ∧
    validateFileReferences fsOneOfTwo "/r" (.map kvsTwoFiles) =
      [{ path := "/r/files/a.txt", type := .info,
         message := "Referenced file exists: files/a.txt" },
       { path := "/r/files/b.txt", type := .error,
         message := "Referenced file does not exist: files/b.txt" }] :=
  ⟨by decide,
   by
    rw [fileReferences_per_entry fsOneOfTwo "/r" kvsTwoFiles
      ["files/a.txt", "files/b.txt"] rfl (by decide)]
    rfl⟩

/-! ## C6: Cross-Reference Reporter -/

/-- The warning Finding the reporter emits for an `extend` declaration. -/
def extendWarning (root s : String) : ValidationResult :=
  { path := joinPath root "stencil-settings.yml", type := .warning,
    message := "Extend reference found: " ++ s ++
      " (cannot validate external references in Phase 1)" }

/-- The warning Finding the reporter emits for one `include` entry. -/
def includeWarning (root s : String) : ValidationResult :=
  { path := joinPath root "stencil-settings.yml", type := .warning,
    message := "Include reference found: " ++ s ++
      " (cannot validate external references in Phase 1)" }

/-- The string entries of a YAML sequence, in order. -/
def stringEntries : List Yaml → List String
  | [] => []
  | .str s :: rest => s :: stringEntries rest
  | _ :: rest => stringEntries rest

/-- Specification-side description of the Cross-Reference Reporter on a
settings map (the claim as amended): one warning naming the extend target
when `extend` is set to a non-empty string — an empty or non-string
`extend` emits nothing — followed by one warning per string entry of an
`include` sequence, in sequence order. -/
def crossRefSpec (root : String) (kvs : List (String × Yaml)) :
    List ValidationResult :=
  (match kvs.lookup "extend" with
   | some (.str s) => if s = "" then [] else [extendWarning root s]
   | _ => []) ++
  (match kvs.lookup "include" with
   | some (.arr xs) => (stringEntries xs).map (includeWarning root)
   | _ => [])

/-- `filterMap` of the per-entry include check over a YAML sequence is the
map of `includeWarning` over its string entries. -/
theorem filterMap_includeWarning (root : String) (xs : List Yaml) :
    xs.filterMap (fun inc =>
      match inc with
      | Yaml.str s => some
          { path := joinPath root "stencil-settings.yml", type := Severity.warning,
            message := "Include reference found: " ++ s ++
              " (cannot validate external references in Phase 1)",
            details := none }
      | _ => none) = (stringEntries xs).map (includeWarning root) := by
  induction xs with
  | nil => rfl
  | cons x rest ih =>
      cases x <;> simp [stringEntries, includeWarning, List.filterMap_cons, ih]

/-- C6 (amended): the Cross-Reference Reporter — which takes no
file-system argument at all, mirroring the source — emits only
warning-severity Findings (never an error, whatever the named targets
are), and its output is exactly `crossRefSpec`: one warning for a
non-empty string `extend` (none when `extend` is set to the empty
string), and one warning per string `include` entry in order. -/
theorem crossRef_warnings (root : String) (kvs : List (String × Yaml)) :
    validateReferenceIntegrity root (.map kvs) = crossRefSpec root kvs ∧
    ∀ f ∈ validateReferenceIntegrity root (.map kvs), f.type = .warning := by
  have heq : validateReferenceIntegrity root (.map kvs) = crossRefSpec root kvs := by
    unfold validateReferenceIntegrity crossRefSpec
    simp only [Yaml.isJsObject, Bool.not_true, Bool.false_eq_true, if_false,
      Yaml.jsGet]
    congr 1
    · rcases hx : kvs.lookup "extend" with _ | v
      · rfl
      · cases v <;> try rfl
        rename_i s
        by_cases hs : s = "" <;> simp [hs, extendWarning]
    · rcases hx : kvs.lookup "include" with _ | v
      · rfl
      · cases v <;> try rfl
        rename_i xs
        exact filterMap_includeWarning root xs
  refine ⟨heq, ?_⟩
  rw [heq]
  intro f hf
  unfold crossRefSpec at hf
  rcases List.mem_append.1 hf with h | h
  · rcases hx : kvs.lookup "extend" with _ | v <;> rw [hx] at h
    · simp at h
    · cases v <;> simp at h
      rename_i s
      rcases h with ⟨-, h⟩
      rw [h, extendWarning]
  · rcases hx : kvs.lookup "include" with _ | v <;> rw [hx] at h
    · simp at h
    · cases v <;> simp at h
      rcases h with ⟨s, -, h⟩
      rw [← h, includeWarning]

/-- A schema-valid settings map whose `extend` is set to the empty string. -/
def kvsExtendEmpty : List (String × Yaml) :=
  [("id", .str "svc"), ("name", .str "Service"), ("version", .str "1.0.0"),
   ("type", .str "service"), ("extend", .str "")]

/-- C6 counterexample: `kvsExtendEmpty` is schema-valid and has `extend`
set (to `""`), so it reaches the Cross-Reference Reporter, yet the
reporter emits no Finding at all — the guard `settingsObj.extend &&` is
JavaScript truthiness, and the empty string is falsy, contradicting
"if `extend` is set it emits exactly one warning Finding". -/
theorem crossRef_extend_set_counterexample :
    stencilIssues (.map kvsExtendEmpty) = [] ∧
    (Yaml.map kvsExtendEmpty).jsGet "extend" = some (.str "") ∧
    validateReferenceIntegrity "/r" (.map kvsExtendEmpty) = [] :=
  ⟨rfl, rfl, rfl⟩

/-! ## C7: strict-mode checks -/

/-- The strict-mode id-convention warning Finding. -/
def strictIdWarning (settingsFile : String) : ValidationResult :=
  { path := settingsFile, type := .warning,
    message := "Stencil ID should only contain lowercase letters, numbers, hyphens, and underscores" }

/-- The strict-mode version-format warning Finding. -/
def strictVersionWarning (settingsFile : String) : ValidationResult :=
  { path := settingsFile, type := .warning,
    message := "Version should follow semantic versioning format (x.y.z)" }

/-- The strict-mode missing-description warning Finding. -/
def strictDescriptionWarning (settingsFile : String) : ValidationResult :=
  { path := settingsFile, type := .warning,
    message := "Description is recommended for better documentation" }

/-- C7: the strict checks run only under the strict flag and only after
schema validation fully succeeds (otherwise the settings-file pass emits
no warning-severity Finding at all); each of the three checks emits at
most one Finding, always warning-severity and never an error; the checks
are independent, so each fires exactly when its own condition is violated,
all in the same run. -/
theorem strictChecks_gated_independent (fs : FileSystem)
    (parseYaml : String → Except String Yaml) (settingsFile content : String)
    (kvs : List (String × Yaml)) (idv verv : String)
    (strictFlag : Bool) (failOn : String) (ignorePatterns : List String)
    (hread : fs.readFileSync settingsFile = .ok content)
    (hparse : parseYaml content = .ok (.map kvs))
    (hid : kvs.lookup "id" = some (.str idv))
    (hver : kvs.lookup "version" = some (.str verv)) :
    ((strictFlag = false ∨ stencilIssues (.map kvs) ≠ []) →
      ∀ f ∈ validateSettingsFile fs parseYaml settingsFile
          { failOn := failOn, strict := strictFlag, ignore := ignorePatterns },
        f.type ≠ .warning) ∧
    (∀ f ∈ performStrictValidation settingsFile (.map kvs),
        f.type = .warning) ∧
    (performStrictValidation settingsFile (.map kvs) =
      (if idConventionOk idv then [] else [strictIdWarning settingsFile]) ++
      (if semverPrefixOk verv then [] else [strictVersionWarning settingsFile]) ++
      (if truthyOpt (kvs.lookup "description") then []
       else [strictDescriptionWarning settingsFile])) ∧
    (strictFlag = true → stencilIssues (.map kvs) = [] →
      validateSettingsFile fs parseYaml settingsFile
          { failOn := failOn, strict := strictFlag, ignore := ignorePatterns } =
        performStrictValidation settingsFile (.map kvs) ++
          [{ path := settingsFile, type := .info,
             message := "Stencil settings file is valid" }]) := by
  have hstrict : performStrictValidation settingsFile (.map kvs) =
      (if idConventionOk idv then [] else [strictIdWarning settingsFile]) ++
      (if semverPrefixOk verv then [] else [strictVersionWarning settingsFile]) ++
      (if truthyOpt (kvs.lookup "description") then []
       else [strictDescriptionWarning settingsFile]) := by
    cases h1 : idConventionOk idv <;> cases h2 : semverPrefixOk verv <;>
      cases h3 : truthyOpt (kvs.lookup "description") <;>
      simp [performStrictValidation, Yaml.isJsObject, Yaml.jsGet, hid, hver,
        h1, h2, h3, strictIdWarning, strictVersionWarning,
        strictDescriptionWarning]
  refine ⟨?_, ?_, hstrict, ?_⟩
  · intro hgate f hf
    unfold validateSettingsFile at hf
    simp only [hread] at hf
    simp only [hparse] at hf
    rcases hiss : stencilIssues (.map kvs) with _ | ⟨issue, rest⟩
    · rw [hiss] at hf
      rcases hgate with hg | hg
      · simp only [hg] at hf
        simp at hf
        rw [hf]
        intro hcontra
        cases hcontra
      · exact absurd hiss hg
    · rw [hiss] at hf
      simp only [List.mem_map] at hf
      rcases hf with ⟨issue0, -, hf⟩
      rw [← hf]
      intro hcontra
      cases hcontra
  · intro f hf
    rw [hstrict] at hf
    rcases List.mem_append.1 hf with h | h
    · rcases List.mem_append.1 h with h | h
      · split at h
        · simp at h
        · simp at h
          rw [h, strictIdWarning]
      · split at h
        · simp at h
        · simp at h
          rw [h, strictVersionWarning]
    · split at h
      · simp at h
      · simp at h
        rw [h, strictDescriptionWarning]
  · intro hs hiss
    unfold validateSettingsFile
    simp only [hread]
    simp only [hparse]
    simp only [hiss]
    simp [hs]

/-- Settings map for the strict-mode witness: schema-valid, `id` violating
the naming convention, a well-formed `version`, no `description`. -/
def kvsStrictDemo : List (String × Yaml) :=
  [("id", .str "Bad ID!"), ("name", .str "Service"),
   ("version", .str "1.0.0"), ("type", .str "service")]

/-- File system for the strict-mode witness. -/
def fsStrictDemo : FileSystem :=
  { existsSync := fun p => p == "/r" || p == "/r/stencil-settings.yml"
    isDirectorySync := fun p => p == "/r"
    readFileSync := fun p =>
      if p == "/r/stencil-settings.yml" then .ok "doc7" else .error "ENOENT"
    globCount := fun _ => 0 }

/-- Parser for the strict-mode witness run. -/
def parseStrictDemo : String → Except String Yaml := fun s =>
  if s == "doc7" then .ok (.map kvsStrictDemo) else .error "bad"

/-- C7 witness: on `kvsStrictDemo` under strict mode the settings-file pass
succeeds and appends exactly the independent convention warnings before the
single info Finding, per the general theorem. -/
theorem strictChecks_gated_independent_witness :
    (performStrictValidation "/r/stencil-settings.yml" (.map kvsStrictDemo) =
      (if idConventionOk "Bad ID!" then []
       else [strictIdWarning "/r/stencil-settings.yml"]) ++
      (if semverPrefixOk "1.0.0" then []
       else [strictVersionWarning "/r/stencil-settings.yml"]) ++
      (if truthyOpt (kvsStrictDemo.lookup "description") then []
       else [strictDescriptionWarning "/r/stencil-settings.yml"])) ∧
    (validateSettingsFile fsStrictDemo parseStrictDemo "/r/stencil-settings.yml"
        { failOn := "error", strict := true, ignore := [] } =
      performStrictValidation "/r/stencil-settings.yml" (.map kvsStrictDemo) ++
        [{ path := "/r/stencil-settings.yml", type := .info,
           message := "Stencil settings file is valid" }]) :=
  ⟨(strictChecks_gated_independent fsStrictDemo parseStrictDemo
      "/r/stencil-settings.yml" "doc7" kvsStrictDemo "Bad ID!" "1.0.0"
      true "error" [] rfl rfl rfl rfl).2.2.1,
   (strictChecks_gated_independent fsStrictDemo parseStrictDemo
      "/r/stencil-settings.yml" "doc7" kvsStrictDemo "Bad ID!" "1.0.0"
      true "error" [] rfl rfl rfl rfl).2.2.2 rfl rfl⟩

/-! ## C8: missing required fields -/

/-- The schema-error Finding reported for a missing required field. -/
def requiredFieldErrorFinding (settingsFile field : String) : ValidationResult :=
  { path := settingsFile, type := .error,
    message := "Schema validation failed: " ++ field ++ " - Required" }

/-- C8: for every parseable settings document (a YAML map) missing one of
the required fields `id`, `name`, `version`, `type`, schema validation
puts into the report at least one error-severity Finding whose message
names that field, and the report's `success` is `false`. -/
theorem missingRequiredField_error (fs : FileSystem)
    (parseYaml : String → Except String Yaml) (path : String)
    (opts : ValidateOptions) (now content : String)
    (kvs : List (String × Yaml)) (field : String)
    (h1 : fs.existsSync path = true)
    (h2 : fs.isDirectorySync path = true)
    (h3 : fs.existsSync (joinPath path "stencil-settings.yml") = true)
    (h4 : fs.readFileSync (joinPath path "stencil-settings.yml") = .ok content)
    (h5 : parseYaml content = .ok (.map kvs))
    (hfield : field = "id" ∨ field = "name" ∨ field = "version" ∨ field = "type")
    (hmiss : kvs.lookup field = none) :
    (∃ f ∈ (validateStencilDefinition fs parseYaml path opts now).errors,
      f.type = .error ∧
      f.message = "Schema validation failed: " ++ field ++ " - Required") ∧
    (validateStencilDefinition fs parseYaml path opts now).success = false := by
  have hissue : (⟨[field], "Required"⟩ : ZodIssue) ∈ stencilIssues (.map kvs) := by
    rcases hfield with rfl | rfl | rfl | rfl <;>
      simp [stencilIssues, checkRequiredString, hmiss]
  have hmsg : "Schema validation failed: " ++ joinDot [field] ++ " - " ++
      "Required" = "Schema validation failed: " ++ field ++ " - Required" := by
    show "Schema validation failed: " ++ field ++ " - " ++ "Required" = _
    rw [String.append_assoc]
    congr 1
  have hr1 : requiredFieldErrorFinding (joinPath path "stencil-settings.yml")
      field ∈
      validateSettingsFile fs parseYaml (joinPath path "stencil-settings.yml")
        opts := by
    unfold validateSettingsFile
    simp only [h4]
    simp only [h5]
    rcases hiss2 : stencilIssues (.map kvs) with _ | ⟨i, rest2⟩
    · rw [hiss2] at hissue
      simp at hissue
    · rw [hiss2] at hissue
      refine List.mem_map.2 ⟨⟨[field], "Required"⟩, hissue, ?_⟩
      unfold requiredFieldErrorFinding
      rw [hmsg]
  have hs : validateStencilDefinition fs parseYaml path opts now =
      createSummary path
        (validateSettingsFile fs parseYaml
            (joinPath path "stencil-settings.yml") opts ++
          (validateFileReferences fs path (.map kvs) ++
            validateReferenceIntegrity path (.map kvs)))
        (fs.globCount path) now := by
    unfold validateStencilDefinition
    simp [h1, h2, h3, loadStencilSettings, h4, h5, Yaml.truthy]
  have hmemerr : requiredFieldErrorFinding (joinPath path "stencil-settings.yml")
      field ∈
      (validateStencilDefinition fs parseYaml path opts now).errors := by
    rw [hs]
    show _ ∈ List.filter _ _
    refine List.mem_filter.2 ⟨List.mem_append.2 (.inl hr1), ?_⟩
    rfl
  refine ⟨⟨_, hmemerr, rfl, rfl⟩, ?_⟩
  rcases hcons : (validateStencilDefinition fs parseYaml path opts now).errors
    with _ | ⟨e0, es⟩
  · rw [hcons] at hmemerr
    simp at hmemerr
  · have hsucc : (validateStencilDefinition fs parseYaml path opts now).success =
        ((validateStencilDefinition fs parseYaml path opts now).errors.length == 0) := by
      rw [hs]
      rfl
    rw [hsucc, hcons]
    rfl

/-- C8 witness: the document parsing to `{name: "X"}` is missing `id`, and
the run's report indeed has `success = false` (via the general theorem at
this concrete input). -/
theorem missingRequiredField_error_witness :
    (validateStencilDefinition fsSchemaInvalid parseNameOnly "/r"
        { failOn := "error" } "t0").success = false :=
  (missingRequiredField_error fsSchemaInvalid parseNameOnly "/r"
    { failOn := "error" } "t0" "name: X" [("name", .str "X")] "id"
    rfl rfl rfl rfl rfl (.inl rfl) rfl).2

/-! ## C9: determinism up to the timestamp -/

/-- C9: the engine is a pure function of the file-system snapshot, the
parser, and the options — two runs over the same unchanged inputs yield
reports identical in every field (Findings with their paths, severities,
messages, details and order; success; totalFiles; root path), differing
at most in `validatedAt`. -/
theorem run_deterministic_up_to_timestamp (fs : FileSystem)
    (parseYaml : String → Except String Yaml) (path : String)
    (opts : ValidateOptions) (t1 t2 : String) :
    (validateStencilDefinition fs parseYaml path opts t1).success =
      (validateStencilDefinition fs parseYaml path opts t2).success ∧
    (validateStencilDefinition fs parseYaml path opts t1).path =
      (validateStencilDefinition fs parseYaml path opts t2).path ∧
    (validateStencilDefinition fs parseYaml path opts t1).errors =
      (validateStencilDefinition fs parseYaml path opts t2).errors ∧
    (validateStencilDefinition fs parseYaml path opts t1).warnings =
      (validateStencilDefinition fs parseYaml path opts t2).warnings ∧
    (validateStencilDefinition fs parseYaml path opts t1).info =
      (validateStencilDefinition fs parseYaml path opts t2).info ∧
    (validateStencilDefinition fs parseYaml path opts t1).totalFiles =
      (validateStencilDefinition fs parseYaml path opts t2).totalFiles := by
  unfold validateStencilDefinition
  by_cases h1 : fs.existsSync path
  · by_cases h2 : fs.isDirectorySync path
    · by_cases h3 : fs.existsSync (joinPath path "stencil-settings.yml")
      · simp [h1, h2, h3, createSummary]
      · simp [h1, h2, h3, createSummary]
    · simp [h1, h2, createSummary]
  · simp [h1, createSummary]
